import Mathlib

/-!
Verification of the heic-convert batch conversion pipeline.

Shallow embedding of the repository's core modules:
  * `src/converter.py`  — `HeicConvert` (`_get_output_path`, `resize_image`,
    `_handle_exif_data`, `_get_image_and_resize`, `convert_to_jpg`,
    `convert_to_png`, `convert_to_heic`)
  * `src/conversion_manager.py` — `perform_conversion`
  * `src/file_discovery.py` — `FileDiscovery.find_heic_files`
  * `src/main.py` — construction of the converter from CLI arguments

The filesystem is modelled as a list of existing output path strings; the
external codec boundary (pillow-heif decode, PIL encode) is modelled by
per-file oracle flags (`decodable`, `encodeOk`) plus a decoded image record.
Python integers are modelled as `Nat` (all quantities in the claims are
non-negative), and PIL's float arithmetic `round(a / b)` is modelled as
rational rounding half-to-even (`pyRound`), matching Python's `round`.
-/

namespace HeicConvertModel

/-- Python's `round(a / b)` for non-negative `a`, positive `b`:
round half to even (banker's rounding), as used by `ImageOps.scale`
and `ImageOps.contain`. -/
def pyRound (a b : Nat) : Nat :=
  let q := a / b
  let r := a % b
  if 2 * r < b then q
  else if b < 2 * r then q + 1
  else if q % 2 = 0 then q else q + 1

/-- Value of the `--existing` option (`converter.py` `existing_mode`). -/
inductive ExistingMode
  | rename
  | overwrite
  | fail
deriving DecidableEq, Repr

/-- Value of the `--format` option. -/
inductive Format
  | jpg
  | png
  | heic
  | both
deriving DecidableEq, Repr

/-- Parsed EXIF blob: piexif's dict view of the bytes.  `hasZeroth` models
the presence of the `"0th"` IFD; `width`/`height` are the
`ImageIFD.ImageWidth` / `ImageIFD.ImageLength` entries. -/
structure Exif where
  hasZeroth : Bool
  width : Nat
  height : Nat
deriving DecidableEq, Repr

/-- A decoded PIL image: dimensions plus the optional `info["exif"]` blob. -/
structure Img where
  width : Nat
  height : Nat
  exif : Option Exif
deriving DecidableEq, Repr

/-- The argparse `Namespace` handed to the converter
(`main.py parse_arguments` / `gui.py build_args_object`). -/
structure Args where
  format : Format
  jpg_quality : Nat
  png_compression : Nat
  heic_quality : Nat
  existing : ExistingMode
  output : Option String
  resize : Option Nat
  width : Option Nat
  height : Option Nat
deriving DecidableEq, Repr

/-- Python truthiness of an optional integer argument:
`if args.resize:` is true exactly when the value is present and non-zero. -/
def truthy : Option Nat → Bool
  | none => false
  | some v => v != 0

/-- `PIL.ImageOps.scale(img, factor)` with `factor = p / 100`
(`converter.py` lines 99-102).  `factor == 1` returns a copy; `factor <= 0`
(here `p = 0`) raises `ValueError`; otherwise both dimensions are scaled
and rounded with Python `round`. -/
def imageOpsScale (img : Img) (p : Nat) : Except String Img :=
  if p = 100 then .ok img
  else if p = 0 then .error "the factor must be greater than 0"
  else .ok { img with
    width := pyRound (img.width * p) 100,
    height := pyRound (img.height * p) 100 }

/-- `PIL.ImageOps.contain(img, (tw, th))`: fit inside the box preserving
aspect ratio.  Ratio comparisons `w/h` vs `tw/th` are modelled by
cross-multiplication; the dependent dimension is `round`ed. -/
def imageOpsContain (img : Img) (tw th : Nat) : Img :=
  let w := img.width
  let h := img.height
  if w * th ≠ tw * h then
    if tw * h < w * th then
      let nh := pyRound (h * tw) w
      if nh ≠ th then { img with width := tw, height := nh }
      else { img with width := tw, height := th }
    else
      let nw := pyRound (w * th) h
      if nw ≠ tw then { img with width := nw, height := th }
      else { img with width := tw, height := th }
  else { img with width := tw, height := th }

/-- Number of resize directives that are truthy
(`converter.py` lines 84-92). -/
def truthyCount (args : Args) : Nat :=
  (if truthy args.resize then 1 else 0)
  + (if truthy args.width then 1 else 0)
  + (if truthy args.height then 1 else 0)

/-- `HeicConvert.resize_image` (`converter.py` lines 81-112).
Returns the resized image (or the error raised by `ImageOps.scale`)
together with whether the multiple-options warning was logged.
The width/height branches call `ImageOps.contain` with the other box
dimension fixed at `100000000`, exactly as in the source. -/
def resizeImage (img : Img) (args : Args) : Except String Img × Bool :=
  let warned : Bool := decide (1 < truthyCount args)
  if truthy args.resize then
    match args.resize with
    | some p => (imageOpsScale img p, warned)
    | none => (.ok img, warned)
  else if truthy args.width then
    match args.width with
    | some w => (.ok (imageOpsContain img w 100000000), warned)
    | none => (.ok img, warned)
  else if truthy args.height then
    match args.height with
    | some h => (.ok (imageOpsContain img 100000000 h), warned)
    | none => (.ok img, warned)
  else (.ok img, warned)

/-- A file in the searched directory tree: the directory components below
the search root, and the file name. -/
structure FsEntry where
  dirs : List String
  name : String
deriving DecidableEq, Repr

/-- fnmatch of the pattern `*<pat>` against a file name: the name ends
with `pat` (matching on the character list). -/
def nameEndsWith (name pat : String) : Bool :=
  pat.data.isSuffixOf name.data

/-- One `glob`/`rglob` call of `find_heic_files`: POSIX (case-sensitive)
matching of the pattern `*<ext>`; `rglob` sees every depth, `glob` only the
root directory itself. -/
def globHeic (entries : List FsEntry) (recursive : Bool) (ext : String) : List FsEntry :=
  entries.filter (fun e => (recursive || e.dirs.isEmpty) && nameEndsWith e.name ext)

/-- `FileDiscovery.find_heic_files` (`file_discovery.py` lines 11-32):
union of the four case-variant glob results, deduplicated by the
`set(...)` construction. -/
def findHeicFiles (entries : List FsEntry) (recursive : Bool) : List FsEntry :=
  (globHeic entries recursive ".heic" ++ globHeic entries recursive ".HEIC"
    ++ globHeic entries recursive ".heif" ++ globHeic entries recursive ".HEIF").dedup

/-- The converter configuration (`HeicConvert.__init__` attributes,
`converter.py` lines 30-35; the resampling filter is a pass-through token
and is omitted). -/
structure HeicConvert where
  output_dir : Option String
  jpg_quality : Nat
  png_compression : Nat
  heic_quality : Nat
  existing_mode : ExistingMode
deriving DecidableEq, Repr

/-- `HeicConvert.__init__` validation (`converter.py` lines 17-28).
The `existing_mode` string check is absorbed by the `ExistingMode` enum. -/
def mkHeicConvert (output_dir : Option String) (jpgq pngc heicq : Nat)
    (mode : ExistingMode) : Except String HeicConvert :=
  if jpgq < 1 ∨ 100 < jpgq then .error "JPEG quality must be between 1-100"
  else if 9 < pngc then .error "PNG compression must be between 0-9"
  else if heicq < 1 ∨ 100 < heicq then .error "HEIC quality must be between 1-100"
  else .ok ⟨output_dir, jpgq, pngc, heicq, mode⟩

/-- Construction of the converter in `main.py` line 145:
`HeicConvert(output_dir=args.output, jpg_quality=args.jpg_quality,
existing_mode=args.existing)`.  The `png_compression` and `heic_quality`
keyword arguments are not passed, so the constructor defaults `6` and `90`
are used regardless of `args.png_compression` / `args.heic_quality`. -/
def mainBuildConverter (args : Args) : Except String HeicConvert :=
  mkHeicConvert args.output args.jpg_quality 6 90 args.existing

/-- The k-th output-path candidate built by `_get_output_path`
(`converter.py` lines 41, 73): the plain `stem + extension` for `k = 0`,
and `stem_k + extension` for `k ≥ 1`, joined under the output directory. -/
def candidate (dir stem ext : String) : Nat → String
  | 0 => dir ++ "/" ++ stem ++ ext
  | Nat.succ k => dir ++ "/" ++ stem ++ "_" ++ toString (k + 1) ++ ext

/-- The `rename` while-loop of `_get_output_path` (`converter.py`
lines 67-77): starting from candidate `k`, return the first candidate not
existing on storage.  `fuel` bounds the iteration so the model is total;
`none` encodes the (unreachable for a finite filesystem) case of the fuel
running out. -/
def searchFrom (fs : List String) (dir stem ext : String) : Nat → Nat → Option String
  | _, 0 => none
  | k, Nat.succ fuel =>
    if fs.contains (candidate dir stem ext k) then
      searchFrom fs dir stem ext (k + 1) fuel
    else some (candidate dir stem ext k)

/-- Result of `_get_output_path`: a path, the distinguished
`FileExistsError` (`fail` mode), or the fuel artifact. -/
inductive PathOutcome
  | ok (p : String)
  | alreadyExists
  | noFuel
deriving DecidableEq, Repr

/-- `HeicConvert._get_output_path` (`converter.py` lines 38-79).
`fs` is the set of paths existing on storage.  When no output directory is
configured, the input file's parent directory is used (the fallback
branch).  Under `fail` the distinguished already-exists condition is
raised; under `overwrite` the path is returned unchanged; under `rename`
the `_N` loop runs.  `outDir` is the directory selection at the top of
the function: the configured output directory, or the input file's
parent directory as the fallback branch. -/
def outDir (conv : HeicConvert) (input_parent : String) : String :=
  match conv.output_dir with
  | some d => d
  | none => input_parent

def getOutputPath (conv : HeicConvert) (fs : List String)
    (input_parent stem ext : String) : PathOutcome :=
  let dir := outDir conv input_parent
  let base := candidate dir stem ext 0
  if fs.contains base then
    match conv.existing_mode with
    | .fail => .alreadyExists
    | .overwrite => .ok base
    | .rename =>
      match searchFrom fs dir stem ext 0 (fs.length + 2) with
      | some p => .ok p
      | none => .noFuel
  else .ok base

/-- One input HEIC file together with the behaviour of the external
boundaries on it: `statOk` — `Path(f).stat()` succeeds; `decodable` —
`pillow_heif.open_heif`/`Image.frombytes` succeed, yielding `image`;
`encodeOk` — the PIL `save` call succeeds. -/
structure InputFile where
  path : String
  parent : String
  stem : String
  size : Nat
  statOk : Bool
  decodable : Bool
  image : Img
  encodeOk : Bool
deriving DecidableEq, Repr

/-- Log events relevant to the claims, one per logging call site. -/
inductive LogEvent
  | errorOpeningHeic
  | warnMultipleResize
  | errorConvertingJpg (path : String)
  | errorConvertingPng (path : String)
  | errorConvertingHeic
  | convertedFile (inp out : String)
  | managerFailed (path : String)
deriving DecidableEq, Repr

/-- `HeicConvert._get_image_and_resize` (`converter.py` lines 165-188):
decode the HEIC file and apply `resize_image`; any exception (decode or
resize) is caught, logged as `Error opening HEIC file: {e}` (without the
path), and `None` is returned. -/
def getImageAndResize (file : InputFile) (args : Option Args) :
    Option Img × List LogEvent :=
  if file.decodable then
    match args with
    | some a =>
      match resizeImage file.image a with
      | (.ok img, warned) =>
        (some img, if warned then [.warnMultipleResize] else [])
      | (.error _, warned) =>
        (none, (if warned then [.warnMultipleResize] else []) ++ [.errorOpeningHeic])
    | none => (some file.image, [])
  else (none, [.errorOpeningHeic])

/-- Result record of `HeicConvert._handle_exif_data`
(`converter.py` lines 124-163): the `exif_bytes` to attach. -/
structure ExifResult where
  exif_bytes : Option Exif
deriving DecidableEq, Repr

/-- `HeicConvert._handle_exif_data` (`converter.py` lines 124-163).
If the image carries EXIF, the blob is returned; when `original_size` is
given and differs from the image's current size and the `"0th"` IFD is
present, the width/height entries are rewritten to the image's current
dimensions.  Parse failures degrade to the unmodified blob. -/
def handleExifData (image : Img) (original_size : Option (Nat × Nat)) : ExifResult :=
  match image.exif with
  | none => ⟨none⟩
  | some e =>
    match original_size with
    | none => ⟨some e⟩
    | some os =>
      if (image.width, image.height) ≠ os then
        if e.hasZeroth then
          ⟨some { e with width := image.width, height := image.height }⟩
        else ⟨some e⟩
      else ⟨some e⟩

/-- Result of one `convert_to_*` call: the returned output path (or
`None`), the filesystem after any write, the log events emitted, the EXIF
blob attached to the output (if any), and the quality/compression value
actually passed to the encode call (if it was reached). -/
structure ConvOut where
  result : Option String
  fs : List String
  logs : List LogEvent
  attachedExif : Option Exif
  usedQuality : Option Nat
deriving DecidableEq, Repr

/-- `HeicConvert.convert_to_jpg` (`converter.py` lines 190-219).
`FileExistsError` from `_get_output_path` is translated into a `None`
return with no error log; a `None` image (decode/resize failure) makes
`heic_image.size` raise `AttributeError`, caught by the generic handler
which logs `Error converting {heic_file} to JPG` and returns `None`.
Note that `_handle_exif_data` is called with `heic_image.size` — the
already-resized size — as `original_size` (line 202). -/
def convertToJpg (conv : HeicConvert) (fs : List String) (file : InputFile)
    (args : Args) : ConvOut :=
  match getOutputPath conv fs file.parent file.stem ".jpg" with
  | .alreadyExists => ⟨none, fs, [], none, none⟩
  | .noFuel => ⟨none, fs, [.errorConvertingJpg file.path], none, none⟩
  | .ok outputPath =>
    match getImageAndResize file (some args) with
    | (none, logs) => ⟨none, fs, logs ++ [.errorConvertingJpg file.path], none, none⟩
    | (some img, logs) =>
      let exifInfo := handleExifData img (some (img.width, img.height))
      if file.encodeOk then
        ⟨some outputPath, outputPath :: fs,
          logs ++ [.convertedFile file.path outputPath],
          exifInfo.exif_bytes, some conv.jpg_quality⟩
      else ⟨none, fs, logs ++ [.errorConvertingJpg file.path], none, none⟩

/-- `HeicConvert.convert_to_png` (`converter.py` lines 221-254): same
shape as the JPG path; the encode is invoked with
`compress_level=self.png_compression` and the EXIF blob is re-injected
through the PNG chunk mechanism after the primary write. -/
def convertToPng (conv : HeicConvert) (fs : List String) (file : InputFile)
    (args : Args) : ConvOut :=
  match getOutputPath conv fs file.parent file.stem ".png" with
  | .alreadyExists => ⟨none, fs, [], none, none⟩
  | .noFuel => ⟨none, fs, [.errorConvertingPng file.path], none, none⟩
  | .ok outputPath =>
    match getImageAndResize file (some args) with
    | (none, logs) => ⟨none, fs, logs ++ [.errorConvertingPng file.path], none, none⟩
    | (some img, logs) =>
      let exifInfo := handleExifData img (some (img.width, img.height))
      if file.encodeOk then
        ⟨some outputPath, outputPath :: fs,
          logs ++ [.convertedFile file.path outputPath],
          exifInfo.exif_bytes, some conv.png_compression⟩
      else ⟨none, fs, logs ++ [.errorConvertingPng file.path], none, none⟩

/-- A Python value passed to `pathlib.Path(...)`: a path string or a PIL
image object. -/
inductive PyVal
  | str (s : String)
  | image (img : Img)
deriving DecidableEq, Repr

/-- `pathlib.Path(x)`: accepts `str` / `os.PathLike`; a PIL `Image` is
neither, so `Path(heic_image)` raises `TypeError`. -/
def pyPath : PyVal → Except String String
  | .str s => .ok s
  | .image _ =>
    .error "TypeError: argument should be a str or an os.PathLike object"

/-- Last path component of a string path (used only by the dead
continuation of `convert_to_heic`). -/
def lastComponent (s : String) : String :=
  (s.splitOn "/").getLastD s

/-- `Path(p).stem`: the final component without its last extension. -/
def stemOf (s : String) : String :=
  let nm := lastComponent s
  let parts := nm.splitOn "."
  if parts.length ≤ 1 then nm else String.intercalate "." parts.dropLast

/-- `Path(p).parent` rendered as a string. -/
def parentOf (s : String) : String :=
  String.intercalate "/" (s.splitOn "/").dropLast

/-- `HeicConvert.convert_to_heic` (`converter.py` lines 256-280).
After resolving the output path (line 261) and decoding, line 267 calls
`self._get_output_path(Path(heic_image), '.heic')`: `Path` applied to the
PIL image (or to `None` when decoding failed) raises `TypeError`, which
the generic handler catches, logging `Error converting {heic_image} to
HEIC` (the image repr, not the input path) and returning `None`.  The
`.ok` arm of the `pyPath` match carries the remaining source steps but is
unreachable. -/
def convertToHeic (conv : HeicConvert) (fs : List String) (file : InputFile)
    (args : Args) : ConvOut :=
  match getOutputPath conv fs file.parent file.stem ".heic" with
  | .alreadyExists => ⟨none, fs, [], none, none⟩
  | .noFuel => ⟨none, fs, [.errorConvertingHeic], none, none⟩
  | .ok _ =>
    match getImageAndResize file (some args) with
    | (none, logs) =>
      -- heic_image is None: `Path(None)` raises TypeError at line 267
      ⟨none, fs, logs ++ [.errorConvertingHeic], none, none⟩
    | (some img, logs) =>
      match pyPath (.image img) with
      | .error _ => ⟨none, fs, logs ++ [.errorConvertingHeic], none, none⟩
      | .ok p2 =>
        match getOutputPath conv fs (parentOf p2) (stemOf p2) ".heic" with
        | .alreadyExists => ⟨none, fs, logs, none, none⟩
        | .noFuel => ⟨none, fs, logs ++ [.errorConvertingHeic], none, none⟩
        | .ok outputPath =>
          if file.encodeOk then
            ⟨some outputPath, outputPath :: fs,
              logs ++ [.convertedFile file.path outputPath],
              none, some conv.heic_quality⟩
          else ⟨none, fs, logs ++ [.errorConvertingHeic], none, none⟩

/-- The dict returned by `perform_conversion`
(`conversion_manager.py` lines 101-111).  Sizes are in bytes (the source
divides by 1024² for display). -/
structure RunSummary where
  success_count : Nat
  failure_count : Nat
  skipped_count : Nat
  converted_files : List String
  skipped_files : List String
  errors : List (String × String)
  total_original_size : Nat
  total_converted_size : Nat
deriving DecidableEq, Repr

/-- Accumulator state threaded through the `perform_conversion` loop:
the summary counters plus the storage contents and the log. -/
structure BatchState where
  success_count : Nat
  failure_count : Nat
  skipped_count : Nat
  converted_files : List String
  skipped_files : List String
  errors : List (String × String)
  fs : List String
  logs : List LogEvent
deriving DecidableEq, Repr

/-- Initial accumulator of `perform_conversion`
(`conversion_manager.py` lines 21-26). -/
def initBatchState (fs0 : List String) : BatchState :=
  ⟨0, 0, 0, [], [], [], fs0, []⟩

/-- One iteration of the `perform_conversion` loop
(`conversion_manager.py` lines 30-89).  A failing `Path(f).stat()` is the
only exception reaching the manager's `except` (the converters swallow
their own); it is logged, recorded in `errors` and `failure_count`, and
the loop continues.  Otherwise the single matching format branch runs; a
`None` result increments `skipped_count`, a path increments nothing yet
but sets `file_converted`, and the flags decide `skipped_files` and
`success_count`.  `format == "both"` matches no branch in this function. -/
def processFile (conv : HeicConvert) (args : Args) (st : BatchState)
    (file : InputFile) : BatchState :=
  if file.statOk then
    let runBranch : Option ConvOut :=
      match args.format with
      | .png => some (convertToPng conv st.fs file args)
      | .jpg => some (convertToJpg conv st.fs file args)
      | .heic => some (convertToHeic conv st.fs file args)
      | .both => none
    match runBranch with
    | none => st
    | some o =>
      match o.result with
      | some p =>
        -- file_converted = True; success_count += 1
        { st with
          success_count := st.success_count + 1,
          converted_files := st.converted_files ++ [p],
          fs := o.fs,
          logs := st.logs ++ o.logs }
      | none =>
        -- file_skipped = True; skipped_count += 1; skipped_files.append
        { st with
          skipped_count := st.skipped_count + 1,
          skipped_files := st.skipped_files ++ [file.path],
          fs := o.fs,
          logs := st.logs ++ o.logs }
  else
    { st with
      failure_count := st.failure_count + 1,
      errors := st.errors ++ [(file.path, "FileNotFoundError")],
      logs := st.logs ++ [.managerFailed file.path] }

/-- `perform_conversion` (`conversion_manager.py` lines 7-111).
`fs0` is the storage state at batch start and `outSize` gives the
on-storage size of a written output.  The final statistics re-`stat`
every input (line 92), so a missing input makes the whole call raise
after the loop; otherwise the summary dict is returned.  The function has
no cancellation parameter: every file in `heic_files` is iterated. -/
def performConversion (conv : HeicConvert) (args : Args)
    (heic_files : List InputFile) (fs0 : List String)
    (outSize : String → Nat) : Except String (RunSummary × List LogEvent) :=
  let final := heic_files.foldl (processFile conv args) (initBatchState fs0)
  if heic_files.all (·.statOk) then
    .ok ({ success_count := final.success_count,
           failure_count := final.failure_count,
           skipped_count := final.skipped_count,
           converted_files := final.converted_files,
           skipped_files := final.skipped_files,
           errors := final.errors,
           total_original_size := (heic_files.map (·.size)).sum,
           total_converted_size := (final.converted_files.map outSize).sum },
         final.logs)
  else .error "FileNotFoundError"

/-- N successive `_get_output_path` resolutions of the same stem into the
same directory, each produced output being written to storage before the
next resolution (the per-file write performed by the conversion).
Returns the produced names in order; stops if a resolution does not
produce a path. -/
def repeatResolve (conv : HeicConvert) (parent stem ext : String) :
    Nat → List String → List String
  | 0, _ => []
  | Nat.succ n, fs =>
    match getOutputPath conv fs parent stem ext with
    | .ok p => p :: repeatResolve conv parent stem ext n (p :: fs)
    | _ => []

/-- Modelled from the spec's words (§4.3 percent mode), for comparison
with the source model only: clamp percent to [1,100], scale both
dimensions by percent/100, floor to integer pixels. -/
def resizeSpecClaimPercent (w h p : Nat) : Nat × Nat :=
  let c := max 1 (min p 100)
  (w * c / 100, h * c / 100)

/-! ## Theorems -/

theorem pyRound_mul_hundred (n : Nat) : pyRound (n * 100) 100 = n := by
  have hmod : n * 100 % 100 = 0 := Nat.mul_mod_left n 100
  have hdiv : n * 100 / 100 = n := Nat.mul_div_cancel n (by norm_num)
  simp [pyRound, hmod, hdiv]

/-- C3: the claim says that for a decodable input with no path collision,
`convert_to_heic` encodes to HEIC and returns the output path.  In the
source, line 267 re-resolves the output path with `Path(heic_image)` —
`pathlib.Path` applied to the decoded PIL image — which raises
`TypeError`; the generic handler catches it and returns `None`.  So
`convert_to_heic` returns `None` for every input, collision or not,
decodable or not. -/
theorem convert_to_heic_always_returns_none (conv : HeicConvert)
    (fs : List String) (file : InputFile) (args : Args) :
    (convertToHeic conv fs file args).result = none := by
  unfold convertToHeic
  cases hp : getOutputPath conv fs file.parent file.stem ".heic" with
  | alreadyExists => rfl
  | noFuel => rfl
  | ok p =>
    cases hg : getImageAndResize file (some args) with
    | mk imgOpt logs =>
      cases imgOpt with
      | none => rfl
      | some img => rfl

theorem convertToPng_usedQuality (conv : HeicConvert) (fs : List String)
    (file : InputFile) (args : Args) (p : String)
    (h : (convertToPng conv fs file args).result = some p) :
    (convertToPng conv fs file args).usedQuality = some conv.png_compression := by
  unfold convertToPng at h ⊢
  cases hp : getOutputPath conv fs file.parent file.stem ".png" with
  | alreadyExists => simp [hp] at h
  | noFuel => simp [hp] at h
  | ok q =>
    simp only [hp] at h ⊢
    cases hg : getImageAndResize file (some args) with
    | mk imgOpt logs =>
      simp only [hg] at h ⊢
      cases imgOpt with
      | none => simp at h
      | some img =>
        cases he : file.encodeOk with
        | false => simp [he] at h
        | true => simp [he]

/-- C5: the claim says the PNG encode uses the request's
`png_compression` and the HEIC encode the request's `heic_quality`, for
every user-supplied value.  `main.py` line 145 constructs `HeicConvert`
without forwarding either keyword, so the constructor defaults `6` and
`90` are always used: whenever the CLI-built converter encodes a PNG, the
compression level passed to `save` is `6`, regardless of
`args.png_compression`. -/
theorem main_drops_png_compression_and_heic_quality (args : Args)
    (conv : HeicConvert) (h : mainBuildConverter args = Except.ok conv) :
    conv.png_compression = 6 ∧ conv.heic_quality = 90 ∧
    ∀ fs file p, (convertToPng conv fs file args).result = some p →
      (convertToPng conv fs file args).usedQuality = some 6 := by
  unfold mainBuildConverter mkHeicConvert at h
  split at h
  · exact absurd h (by simp)
  · split at h
    · exact absurd h (by simp)
    · split at h
      · exact absurd h (by simp)
      · cases h
        refine ⟨rfl, rfl, ?_⟩
        intro fs file p hres
        exact convertToPng_usedQuality _ fs file args p hres

/-- Witness for C5 at a concrete user request: `--png-compression 9`
and `--heic-quality 50` are accepted by the CLI, yet the converter built
by `main` carries compression `6` and quality `90`. -/
theorem main_drops_png_compression_and_heic_quality_witness :
    mainBuildConverter ⟨.png, 90, 9, 50, .fail, some "out", none, none, none⟩
        = Except.ok ⟨some "out", 90, 6, 90, .fail⟩ ∧
    (⟨some "out", 90, 6, 90, .fail⟩ : HeicConvert).png_compression = 6 ∧
    (⟨some "out", 90, 6, 90, .fail⟩ : HeicConvert).heic_quality = 90 := by
  have h : mainBuildConverter ⟨.png, 90, 9, 50, .fail, some "out", none, none, none⟩
      = Except.ok ⟨some "out", 90, 6, 90, .fail⟩ := by rfl
  exact ⟨h, (main_drops_png_compression_and_heic_quality _ _ h).1,
    (main_drops_png_compression_and_heic_quality _ _ h).2.1⟩

/-- C9 counterexample: the claim says percent is clamped to [1,100] and
the scaled dimensions floored.  The source (`converter.py` lines 99-102)
neither clamps (`--resize 200` upscales a 100×200 image to 200×400,
where the claim mandates 100×200) nor floors (`ImageOps.scale` rounds:
3×4 at 50% gives 2×2, where flooring gives 1×2). -/
theorem percent_resize_clamp_floor_counterexample :
    (resizeImage ⟨100, 200, none⟩
        ⟨.jpg, 90, 6, 90, .fail, none, some 200, none, none⟩).1
      = Except.ok ⟨200, 400, none⟩ ∧
    resizeSpecClaimPercent 100 200 200 = (100, 200) ∧
    (resizeImage ⟨3, 4, none⟩
        ⟨.jpg, 90, 6, 90, .fail, none, some 50, none, none⟩).1
      = Except.ok ⟨2, 2, none⟩ ∧
    resizeSpecClaimPercent 3 4 50 = (1, 2) :=
  ⟨rfl, by decide, rfl, by decide⟩

/-- C9 as amended: for a percent-mode resize with percent `p ≥ 1`, the
supplied percent is used as-is (no clamping) and both dimensions are
scaled by `p/100` and rounded to the nearest integer with Python `round`
(half to even), not floored. -/
theorem percent_resize_unclamped_rounded (img : Img) (args : Args) (p : Nat)
    (hp : args.resize = some p) (h1 : 1 ≤ p) :
    (resizeImage img args).1 =
      Except.ok ⟨pyRound (img.width * p) 100, pyRound (img.height * p) 100, img.exif⟩ := by
  have ht : truthy args.resize = true := by
    rw [hp]; simp [truthy]; omega
  unfold resizeImage
  rw [ht]
  simp only [if_true, hp]
  unfold imageOpsScale
  by_cases h100 : p = 100
  · subst h100
    simp [pyRound_mul_hundred]
  · have h0 : ¬ p = 0 := by omega
    simp [h100, h0]

/-- Witness for C9 (amended) at percent 50 on a 3×4 image: the result is
2×2 (rounded), demonstrating round-half-to-even rather than floor. -/
theorem percent_resize_unclamped_rounded_witness :
    (1 ≤ 50 ∧
      (resizeImage ⟨3, 4, none⟩
          ⟨.jpg, 90, 6, 90, .fail, none, some 50, none, none⟩).1
        = Except.ok ⟨pyRound (3 * 50) 100, pyRound (4 * 50) 100, none⟩) ∧
    pyRound (3 * 50) 100 = 2 := by
  exact ⟨⟨by decide,
    percent_resize_unclamped_rounded ⟨3, 4, none⟩
      ⟨.jpg, 90, 6, 90, .fail, none, some 50, none, none⟩ 50 rfl (by decide)⟩,
    by decide⟩

/-- C10 counterexample: the claim says the extension comparison is
case-insensitive for any mixture of upper and lower case.  The source
(`file_discovery.py` lines 18-27) only globs the four all-lower /
all-upper variants, so on a case-sensitive filesystem a file
`photo.Heic` — whose lowercased name does end with `.heic` — is not
returned. -/
theorem discovery_mixed_case_counterexample :
    findHeicFiles [⟨[], "photo.Heic"⟩] true = [] ∧
    (".heic".data.isSuffixOf ("photo.Heic".data.map Char.toLower)) = true := by
  exact ⟨by decide, by decide⟩

/-- C10 as amended: discovery returns exactly the files in scope (all
depths when recursive, only the root directory otherwise) whose name
ends with one of the four exact variants `.heic`, `.HEIC`, `.heif`,
`.HEIF` (mixed-case extensions are not matched on a case-sensitive
filesystem), with no path reported twice, and the empty list — not an
error — when nothing matches. -/
theorem discovery_exact_case_variants (entries : List FsEntry)
    (recursive : Bool) (e : FsEntry) :
    (e ∈ findHeicFiles entries recursive ↔
      e ∈ entries ∧ (recursive || e.dirs.isEmpty) = true ∧
      (nameEndsWith e.name ".heic" || nameEndsWith e.name ".HEIC" ||
        nameEndsWith e.name ".heif" || nameEndsWith e.name ".HEIF") = true) ∧
    (findHeicFiles entries recursive).Nodup := by
  constructor
  · unfold findHeicFiles globHeic
    simp only [List.mem_dedup, List.mem_append, List.mem_filter,
      Bool.and_eq_true, Bool.or_eq_true]
    tauto
  · exact List.nodup_dedup _

theorem resizeImage_snd (img : Img) (args : Args) :
    (resizeImage img args).2 = decide (1 < truthyCount args) := by
  unfold resizeImage
  split_ifs
  · cases args.resize <;> rfl
  · cases args.width <;> rfl
  · cases args.height <;> rfl
  · rfl

/-- C8 counterexample: the claim says any non-null percent takes priority
and a warning fires when more than one directive is non-null.  The source
tests Python truthiness (`if args.resize:`), so a supplied percent of `0`
is skipped: with percent=0, width=200, height=100 on a 100×200 image the
width transform is applied (200×400) and changing width to 300 changes
the result (so width is not ignored); with percent=0 and width=200 (two
non-null directives) no warning is emitted. -/
theorem resize_priority_nonnull_counterexample :
    (resizeImage ⟨100, 200, none⟩
        ⟨.jpg, 90, 6, 90, .fail, none, some 0, some 200, some 100⟩).1
      = Except.ok ⟨200, 400, none⟩ ∧
    (resizeImage ⟨100, 200, none⟩
        ⟨.jpg, 90, 6, 90, .fail, none, some 0, some 300, some 100⟩).1
      = Except.ok ⟨300, 600, none⟩ ∧
    (resizeImage ⟨100, 200, none⟩
        ⟨.jpg, 90, 6, 90, .fail, none, some 0, some 200, none⟩).2 = false :=
  ⟨rfl, rfl, rfl⟩

/-- C8 as amended: for every resize request in which more than one of
{percent, width, height} is supplied non-null AND non-zero (Python
truthiness), the warning signal is emitted and exactly one directive is
applied under priority percent > width > height: a truthy percent makes
the result `ImageOps.scale` regardless of the width/height values, a
truthy width (with falsy percent) makes it `ImageOps.contain` on the
width regardless of the height value, and symmetrically for height. -/
theorem resize_priority_truthy (img : Img) (args : Args)
    (hcnt : 1 < truthyCount args) :
    (resizeImage img args).2 = true ∧
    (∀ p, args.resize = some p → p ≠ 0 →
      (resizeImage img args).1 = imageOpsScale img p ∧
      ∀ w h, (resizeImage img { args with width := w, height := h }).1
        = (resizeImage img args).1) ∧
    (∀ w, truthy args.resize = false → args.width = some w → w ≠ 0 →
      (resizeImage img args).1 = Except.ok (imageOpsContain img w 100000000) ∧
      ∀ r h, truthy r = false →
        (resizeImage img { args with resize := r, height := h }).1
          = (resizeImage img args).1) ∧
    (∀ v, truthy args.resize = false → truthy args.width = false →
      args.height = some v → v ≠ 0 →
      (resizeImage img args).1 = Except.ok (imageOpsContain img 100000000 v) ∧
      ∀ r w, truthy r = false → truthy w = false →
        (resizeImage img { args with resize := r, width := w }).1
          = (resizeImage img args).1) := by
  refine ⟨?_, ?_, ?_, ?_⟩
  · rw [resizeImage_snd]
    exact decide_eq_true hcnt
  · intro p hp hp0
    have ht : truthy args.resize = true := by simp [truthy, hp, hp0]
    constructor
    · unfold resizeImage
      rw [ht, hp]
      simp
    · intro w h
      unfold resizeImage
      rw [ht, hp]
      simp [truthy, hp, hp0]
  · intro w hres hw hw0
    have ht : truthy args.width = true := by simp [truthy, hw, hw0]
    constructor
    · unfold resizeImage
      rw [hres, ht, hw]
      simp
    · intro r h hr
      unfold resizeImage
      rw [hres, ht, hw]
      simp [hr, ht, hw]
  · intro v hres hwid hv hv0
    have ht : truthy args.height = true := by simp [truthy, hv, hv0]
    constructor
    · unfold resizeImage
      rw [hres, hwid, ht, hv]
      simp
    · intro r w hr hw
      unfold resizeImage
      rw [hres, hwid, ht, hv]
      simp [hr, hw, ht, hv]

/-- Witness for C8 (amended): percent=50, width=200, height=100 all
truthy on a 100×200 image: the warning fires and the percent transform
is the one applied. -/
theorem resize_priority_truthy_witness :
    1 < truthyCount ⟨.jpg, 90, 6, 90, .fail, none, some 50, some 200, some 100⟩ ∧
    (resizeImage ⟨100, 200, none⟩
        ⟨.jpg, 90, 6, 90, .fail, none, some 50, some 200, some 100⟩).2 = true ∧
    (resizeImage ⟨100, 200, none⟩
        ⟨.jpg, 90, 6, 90, .fail, none, some 50, some 200, some 100⟩).1
      = imageOpsScale ⟨100, 200, none⟩ 50 := by
  have h : (1 : Nat) < truthyCount ⟨.jpg, 90, 6, 90, .fail, none, some 50, some 200, some 100⟩ := by
    decide
  exact ⟨h, (resize_priority_truthy ⟨100, 200, none⟩ _ h).1,
    ((resize_priority_truthy ⟨100, 200, none⟩ _ h).2.1 50 rfl (by decide)).1⟩

theorem getOutputPath_not_exists (conv : HeicConvert) (fs : List String)
    (parent stem ext : String)
    (hfree : fs.contains (candidate (outDir conv parent) stem ext 0) = false) :
    getOutputPath conv fs parent stem ext =
      .ok (candidate (outDir conv parent) stem ext 0) := by
  have h2 : candidate (outDir conv parent) stem ext 0 ∉ fs := by
    simpa using hfree
  unfold getOutputPath
  simp [h2]

theorem getOutputPath_fail_exists (conv : HeicConvert) (fs : List String)
    (parent stem ext : String)
    (hmode : conv.existing_mode = .fail)
    (hex : fs.contains (candidate (outDir conv parent) stem ext 0) = true) :
    getOutputPath conv fs parent stem ext = .alreadyExists := by
  have h2 : candidate (outDir conv parent) stem ext 0 ∈ fs := by
    simpa using hex
  unfold getOutputPath
  simp [h2, hmode]

/-- C4: the claim says that when the image carries EXIF and a resize
changed the dimensions, the width/height fields of the blob are rewritten
to the final dimensions before reattachment.  `convert_to_jpg` line 202
passes `heic_image.size` — the size of the already-resized image — as
`original_size` to `_handle_exif_data`, so the `image.size !=
original_size` test never fires and the blob is attached unmodified.
The second conjunct shows the helper itself would rewrite the dimensions
had it been given the true pre-resize size: the slip is at the call
site. -/
theorem convert_to_jpg_exif_dimensions_not_rewritten
    (conv : HeicConvert) (fs : List String) (file : InputFile) (args : Args)
    (e : Exif) (img2 : Img)
    (hfree : fs.contains (candidate (outDir conv file.parent) file.stem ".jpg" 0) = false)
    (hdec : file.decodable = true)
    (henc : file.encodeOk = true)
    (hres : resizeImage file.image args = (Except.ok img2, false))
    (hexif : img2.exif = some e)
    (hz : e.hasZeroth = true)
    (hdiff : (img2.width, img2.height) ≠ (file.image.width, file.image.height)) :
    (convertToJpg conv fs file args).attachedExif = some e ∧
    handleExifData img2 (some (file.image.width, file.image.height)) =
      ⟨some { e with width := img2.width, height := img2.height }⟩ := by
  constructor
  · unfold convertToJpg
    rw [getOutputPath_not_exists conv fs file.parent file.stem ".jpg" hfree]
    unfold getImageAndResize
    rw [hdec]
    simp only [if_true, hres]
    unfold handleExifData
    rw [hexif]
    simp [henc]
  · unfold handleExifData
    rw [hexif]
    simp [hdiff, hz]

/-- Witness for C4: a 100×200 image with an EXIF blob carrying the
original 100×200 dimensions, resized to 50%: the attached blob still
holds 100×200, while the helper given the true original size would
rewrite it to 50×100. -/
theorem convert_to_jpg_exif_dimensions_not_rewritten_witness :
    ((50, 100) ≠ ((100 : Nat), (200 : Nat))) ∧
    (convertToJpg ⟨some "out", 90, 6, 90, .fail⟩ []
        ⟨"in/a.heic", "in", "a", 5, true, true, ⟨100, 200, some ⟨true, 100, 200⟩⟩, true⟩
        ⟨.jpg, 90, 6, 90, .fail, some "out", some 50, none, none⟩).attachedExif
      = some ⟨true, 100, 200⟩ ∧
    handleExifData ⟨50, 100, some ⟨true, 100, 200⟩⟩ (some (100, 200))
      = ⟨some ⟨true, 50, 100⟩⟩ := by
  have h := convert_to_jpg_exif_dimensions_not_rewritten
    ⟨some "out", 90, 6, 90, .fail⟩ []
    ⟨"in/a.heic", "in", "a", 5, true, true, ⟨100, 200, some ⟨true, 100, 200⟩⟩, true⟩
    ⟨.jpg, 90, 6, 90, .fail, some "out", some 50, none, none⟩
    ⟨true, 100, 200⟩ ⟨50, 100, some ⟨true, 100, 200⟩⟩
    (by decide) rfl rfl rfl rfl rfl (by decide)
  exact ⟨by decide, h.1, h.2⟩

theorem convertToJpg_decode_error (conv : HeicConvert) (fs : List String)
    (file : InputFile) (args : Args)
    (hdec : file.decodable = false)
    (hfree : fs.contains (candidate (outDir conv file.parent) file.stem ".jpg" 0) = false) :
    convertToJpg conv fs file args =
      ⟨none, fs, [.errorOpeningHeic, .errorConvertingJpg file.path], none, none⟩ := by
  unfold convertToJpg
  rw [getOutputPath_not_exists conv fs file.parent file.stem ".jpg" hfree]
  unfold getImageAndResize
  rw [hdec]
  simp

/-- C1: the claim says a decode/encode error is caught at the conversion
layer, logged with the input path, and counted in `failure_count` (not
`skipped_count`).  In the source the converter catches the error, logs
it with the path, and returns `None` — which `perform_conversion` treats
exactly like the collision skip: the file lands in `skipped_count` and
`skipped_files`, while `failure_count` stays 0.  The batch does continue
(the summary is still produced). -/
theorem decode_error_counted_as_skipped
    (conv : HeicConvert) (args : Args) (file : InputFile) (fs0 : List String)
    (outSize : String → Nat)
    (hstat : file.statOk = true) (hdec : file.decodable = false)
    (hfmt : args.format = .jpg)
    (hfree : fs0.contains (candidate (outDir conv file.parent) file.stem ".jpg" 0) = false) :
    performConversion conv args [file] fs0 outSize =
      Except.ok (⟨0, 0, 1, [], [file.path], [], file.size, 0⟩,
        [.errorOpeningHeic, .errorConvertingJpg file.path]) := by
  unfold performConversion
  simp only [List.foldl_cons, List.foldl_nil, List.all_cons, List.all_nil,
    hstat, Bool.and_self]
  unfold processFile
  rw [hstat, hfmt]
  simp only [if_true, initBatchState]
  rw [convertToJpg_decode_error conv fs0 file args hdec hfree]
  simp

/-- Witness for C1: a present but undecodable input converted to JPG with
no collision: the summary shows `skipped_count = 1`, `failure_count = 0`,
and the error is logged with the input path. -/
theorem decode_error_counted_as_skipped_witness :
    performConversion ⟨some "out", 90, 6, 90, .fail⟩
        ⟨.jpg, 90, 6, 90, .fail, some "out", none, none, none⟩
        [⟨"in/a.heic", "in", "a", 5, true, false, ⟨10, 10, none⟩, true⟩]
        [] (fun _ => 0) =
      Except.ok (⟨0, 0, 1, [], ["in/a.heic"], [], 5, 0⟩,
        [.errorOpeningHeic, .errorConvertingJpg "in/a.heic"]) :=
  decode_error_counted_as_skipped ⟨some "out", 90, 6, 90, .fail⟩
    ⟨.jpg, 90, 6, 90, .fail, some "out", none, none, none⟩
    ⟨"in/a.heic", "in", "a", 5, true, false, ⟨10, 10, none⟩, true⟩
    [] (fun _ => 0) rfl rfl rfl rfl

theorem convertToJpg_already_exists (conv : HeicConvert) (fs : List String)
    (file : InputFile) (args : Args)
    (h : getOutputPath conv fs file.parent file.stem ".jpg" = .alreadyExists) :
    convertToJpg conv fs file args = ⟨none, fs, [], none, none⟩ := by
  unfold convertToJpg
  rw [h]

/-- C6: under the `fail` policy, resolving an output path that already
exists raises the distinguished already-exists condition
(`FileExistsError`, not a generic error), `convert_to_jpg` translates it
into a `None` (skipped) outcome, and the batch counts the file in
`skipped_count` — not `failure_count`. -/
theorem fail_policy_collision_skips_not_fails
    (conv : HeicConvert) (args : Args) (file : InputFile) (fs0 : List String)
    (outSize : String → Nat)
    (hmode : conv.existing_mode = .fail)
    (hex : fs0.contains (candidate (outDir conv file.parent) file.stem ".jpg" 0) = true)
    (hstat : file.statOk = true) (hfmt : args.format = .jpg) :
    getOutputPath conv fs0 file.parent file.stem ".jpg" = .alreadyExists ∧
    (convertToJpg conv fs0 file args).result = none ∧
    performConversion conv args [file] fs0 outSize =
      Except.ok (⟨0, 0, 1, [], [file.path], [], file.size, 0⟩, []) := by
  have hpath := getOutputPath_fail_exists conv fs0 file.parent file.stem ".jpg" hmode hex
  have hconv := convertToJpg_already_exists conv fs0 file args hpath
  refine ⟨hpath, by rw [hconv], ?_⟩
  unfold performConversion
  simp only [List.foldl_cons, List.foldl_nil, List.all_cons, List.all_nil,
    hstat, Bool.and_self]
  unfold processFile
  rw [hstat, hfmt]
  simp only [if_true, initBatchState]
  rw [hconv]
  simp

/-- Witness for C6: a collision under `fail` mode yields the
distinguished condition and a skipped (not failed) batch outcome. -/
theorem fail_policy_collision_skips_not_fails_witness :
    getOutputPath ⟨some "out", 90, 6, 90, .fail⟩ ["out/a.jpg"] "in" "a" ".jpg"
        = .alreadyExists ∧
    (convertToJpg ⟨some "out", 90, 6, 90, .fail⟩ ["out/a.jpg"]
        ⟨"in/a.heic", "in", "a", 5, true, true, ⟨10, 10, none⟩, true⟩
        ⟨.jpg, 90, 6, 90, .fail, some "out", none, none, none⟩).result = none ∧
    performConversion ⟨some "out", 90, 6, 90, .fail⟩
        ⟨.jpg, 90, 6, 90, .fail, some "out", none, none, none⟩
        [⟨"in/a.heic", "in", "a", 5, true, true, ⟨10, 10, none⟩, true⟩]
        ["out/a.jpg"] (fun _ => 0) =
      Except.ok (⟨0, 0, 1, [], ["in/a.heic"], [], 5, 0⟩, []) :=
  fail_policy_collision_skips_not_fails ⟨some "out", 90, 6, 90, .fail⟩
    ⟨.jpg, 90, 6, 90, .fail, some "out", none, none, none⟩
    ⟨"in/a.heic", "in", "a", 5, true, true, ⟨10, 10, none⟩, true⟩
    ["out/a.jpg"] (fun _ => 0) rfl (by decide) rfl rfl

theorem processFile_total_count (conv : HeicConvert) (args : Args)
    (st : BatchState) (file : InputFile)
    (hfmt : args.format ≠ Format.both) :
    (processFile conv args st file).success_count
      + (processFile conv args st file).failure_count
      + (processFile conv args st file).skipped_count
      = st.success_count + st.failure_count + st.skipped_count + 1 := by
  unfold processFile
  cases hstat : file.statOk with
  | false => simp; omega
  | true =>
    cases hf : args.format with
    | both => exact absurd hf hfmt
    | jpg =>
      cases hres : (convertToJpg conv st.fs file args).result <;>
        simp [hres] <;> omega
    | png =>
      cases hres : (convertToPng conv st.fs file args).result <;>
        simp [hres] <;> omega
    | heic =>
      cases hres : (convertToHeic conv st.fs file args).result <;>
        simp [hres] <;> omega

theorem foldl_total_count (conv : HeicConvert) (args : Args)
    (hfmt : args.format ≠ Format.both) :
    ∀ (files : List InputFile) (st : BatchState),
      (files.foldl (processFile conv args) st).success_count
        + (files.foldl (processFile conv args) st).failure_count
        + (files.foldl (processFile conv args) st).skipped_count
      = st.success_count + st.failure_count + st.skipped_count + files.length := by
  intro files
  induction files with
  | nil => intro st; simp
  | cons f rest ih =>
    intro st
    simp only [List.foldl_cons, List.length_cons]
    rw [ih (processFile conv args st f),
      processFile_total_count conv args st f hfmt]
    omega

/-- C2: the claim says that once cancellation is signaled, no further
files are started and the summary reflects only the files completed so
far.  `perform_conversion` has no cancellation parameter and never
consults the GUI's `conversion_cancelled` flag (set by
`stop_conversion`), so every file of the batch receives an outcome —
success, failure or skip — regardless of any cancellation request:
the outcome counts always sum to the full batch length. -/
theorem perform_conversion_attempts_all_files (conv : HeicConvert)
    (args : Args) (files : List InputFile) (fs0 : List String)
    (outSize : String → Nat)
    (hfmt : args.format ≠ Format.both)
    (hstat : ∀ f ∈ files, f.statOk = true) :
    ∃ s logs, performConversion conv args files fs0 outSize = Except.ok (s, logs) ∧
      s.success_count + s.failure_count + s.skipped_count = files.length := by
  unfold performConversion
  have hall : files.all (·.statOk) = true := by
    rw [List.all_eq_true]
    intro f hf
    exact hstat f hf
  rw [hall]
  refine ⟨_, _, rfl, ?_⟩
  show (List.foldl (processFile conv args) (initBatchState fs0) files).success_count
      + (List.foldl (processFile conv args) (initBatchState fs0) files).failure_count
      + (List.foldl (processFile conv args) (initBatchState fs0) files).skipped_count
    = files.length
  rw [foldl_total_count conv args hfmt files (initBatchState fs0)]
  simp [initBatchState]

/-- Witness for C2: a batch of five present files under `--format jpg`:
all five receive an outcome (here the summary counts sum to 5), where
the claim's scenario — cancelling after two — requires the sum 2. -/
theorem perform_conversion_attempts_all_files_witness :
    (Format.jpg ≠ Format.both) ∧
    (∀ f ∈ [(⟨"i/a.heic", "i", "a", 1, true, true, ⟨4, 4, none⟩, true⟩ : InputFile),
            ⟨"i/b.heic", "i", "b", 1, true, true, ⟨4, 4, none⟩, true⟩,
            ⟨"i/c.heic", "i", "c", 1, true, true, ⟨4, 4, none⟩, true⟩,
            ⟨"i/d.heic", "i", "d", 1, true, true, ⟨4, 4, none⟩, true⟩,
            ⟨"i/e.heic", "i", "e", 1, true, true, ⟨4, 4, none⟩, true⟩],
        f.statOk = true) ∧
    ∃ s logs,
      performConversion ⟨some "out", 90, 6, 90, .fail⟩
          ⟨.jpg, 90, 6, 90, .fail, some "out", none, none, none⟩
          [⟨"i/a.heic", "i", "a", 1, true, true, ⟨4, 4, none⟩, true⟩,
           ⟨"i/b.heic", "i", "b", 1, true, true, ⟨4, 4, none⟩, true⟩,
           ⟨"i/c.heic", "i", "c", 1, true, true, ⟨4, 4, none⟩, true⟩,
           ⟨"i/d.heic", "i", "d", 1, true, true, ⟨4, 4, none⟩, true⟩,
           ⟨"i/e.heic", "i", "e", 1, true, true, ⟨4, 4, none⟩, true⟩]
          [] (fun _ => 1) = Except.ok (s, logs) ∧
      s.success_count + s.failure_count + s.skipped_count = 5 := by
  refine ⟨by decide, by decide, ?_⟩
  exact perform_conversion_attempts_all_files ⟨some "out", 90, 6, 90, .fail⟩
    ⟨.jpg, 90, 6, 90, .fail, some "out", none, none, none⟩
    _ [] (fun _ => 1) (by decide) (by decide)

theorem searchFrom_eq (fs : List String) (dir stem ext : String) :
    ∀ (m k fuel : Nat),
      (∀ i, i < m → fs.contains (candidate dir stem ext (k + i)) = true) →
      fs.contains (candidate dir stem ext (k + m)) = false →
      m < fuel →
      searchFrom fs dir stem ext k fuel = some (candidate dir stem ext (k + m)) := by
  intro m
  induction m with
  | zero =>
    intro k fuel h1 h2 h3
    cases fuel with
    | zero => omega
    | succ f =>
      have h2b : fs.contains (candidate dir stem ext k) = false := by
        simpa using h2
      unfold searchFrom
      rw [h2b]
      simp
  | succ m ih =>
    intro k fuel h1 h2 h3
    cases fuel with
    | zero => omega
    | succ f =>
      unfold searchFrom
      have hc : fs.contains (candidate dir stem ext k) = true := by
        have h0 := h1 0 (Nat.succ_pos m)
        simpa using h0
      rw [hc]
      simp only [if_true]
      have e : k + (m + 1) = (k + 1) + m := by omega
      have h2b : fs.contains (candidate dir stem ext ((k + 1) + m)) = false := by
        rwa [e] at h2
      rw [e]
      refine ih (k + 1) f ?_ h2b (by omega)
      intro i hi
      have hx := h1 (i + 1) (by omega)
      have e2 : k + (i + 1) = (k + 1) + i := by omega
      rwa [e2] at hx

theorem getOutputPath_rename_free (conv : HeicConvert)
    (parent dir stem ext : String)
    (hdir : outDir conv parent = dir)
    (hmode : conv.existing_mode = .rename)
    (fs : List String) (j : Nat)
    (hmem : ∀ i, i < j → candidate dir stem ext i ∈ fs)
    (hnot : candidate dir stem ext j ∉ fs)
    (hj : j < fs.length + 2) :
    getOutputPath conv fs parent stem ext = .ok (candidate dir stem ext j) := by
  cases j with
  | zero =>
    have hfree : fs.contains (candidate (outDir conv parent) stem ext 0) = false := by
      rw [hdir]
      simpa using hnot
    rw [getOutputPath_not_exists conv fs parent stem ext hfree, hdir]
  | succ n =>
    have hc : fs.contains (candidate dir stem ext 0) = true := by
      have h0 := hmem 0 (Nat.succ_pos n)
      simpa using h0
    have hs : searchFrom fs dir stem ext 0 (fs.length + 2)
        = some (candidate dir stem ext (n + 1)) := by
      have := searchFrom_eq fs dir stem ext (n + 1) 0 (fs.length + 2)
        (fun i hi => by simpa using hmem i hi)
        (by simpa using hnot) (by omega)
      simpa using this
    unfold getOutputPath
    rw [hdir]
    simp only [hc, if_true, hmode, hs]

theorem repeatResolve_aux (conv : HeicConvert) (parent dir stem ext : String)
    (hdir : outDir conv parent = dir)
    (hmode : conv.existing_mode = .rename)
    (fs0 : List String) (N : Nat)
    (hfresh : ∀ i, i ≤ N → candidate dir stem ext i ∉ fs0)
    (hinj : ∀ i j, i ≤ N → j ≤ N → i ≠ j →
      candidate dir stem ext i ≠ candidate dir stem ext j) :
    ∀ (n j : Nat), n + j ≤ N →
      repeatResolve conv parent stem ext n
          ((List.range j).reverse.map (candidate dir stem ext) ++ fs0)
        = (List.range' j n).map (candidate dir stem ext) := by
  intro n
  induction n with
  | zero => intro j hj; rfl
  | succ n ih =>
    intro j hj
    have hmem : ∀ i, i < j →
        candidate dir stem ext i ∈
          (List.range j).reverse.map (candidate dir stem ext) ++ fs0 := by
      intro i hi
      refine List.mem_append.mpr (Or.inl ?_)
      exact List.mem_map.mpr ⟨i, by simp [hi], rfl⟩
    have hnot : candidate dir stem ext j ∉
        (List.range j).reverse.map (candidate dir stem ext) ++ fs0 := by
      intro hmem2
      rcases List.mem_append.mp hmem2 with hL | hR
      · rcases List.mem_map.mp hL with ⟨i, hi, hEq⟩
        have hij : i < j := by
          have := List.mem_reverse.mp hi
          simpa using this
        exact hinj i j (by omega) (by omega) (by omega) hEq
      · exact hfresh j (by omega) hR
    have hlen : j < ((List.range j).reverse.map (candidate dir stem ext) ++ fs0).length + 2 := by
      simp
      omega
    unfold repeatResolve
    rw [getOutputPath_rename_free conv parent dir stem ext hdir hmode _ j hmem hnot hlen]
    show candidate dir stem ext j ::
        repeatResolve conv parent stem ext n
          (candidate dir stem ext j ::
            ((List.range j).reverse.map (candidate dir stem ext) ++ fs0))
      = (List.range' j (n + 1)).map (candidate dir stem ext)
    have hstep : candidate dir stem ext j ::
          ((List.range j).reverse.map (candidate dir stem ext) ++ fs0)
        = (List.range (j + 1)).reverse.map (candidate dir stem ext) ++ fs0 := by
      rw [List.range_succ]
      simp
    rw [hstep, ih (j + 1) (by omega)]
    rfl

/-- C7: under the `rename` policy, N repeated resolutions of the same
stem into the same output directory — each produced output written to
storage before the next resolution — produce `name.ext`, `name_1.ext`,
`name_2.ext`, … in that exact order, starting the suffix at 1 and
skipping no integers, re-checking existence at each step.  The
hypotheses say the candidate names up to N are pairwise distinct and none
of them pre-exists on storage (true of the source's naming scheme; both
are decidable and discharged at the witness). -/
theorem rename_sequence_deterministic (conv : HeicConvert)
    (parent dir stem ext : String) (fs0 : List String) (N : Nat)
    (hdir : outDir conv parent = dir)
    (hmode : conv.existing_mode = .rename)
    (hnodup : ((List.range (N + 1)).map (candidate dir stem ext)).Nodup)
    (hfresh : ∀ i, i ≤ N → candidate dir stem ext i ∉ fs0) :
    repeatResolve conv parent stem ext N fs0
      = (List.range N).map (candidate dir stem ext) := by
  have hinj : ∀ i j, i ≤ N → j ≤ N → i ≠ j →
      candidate dir stem ext i ≠ candidate dir stem ext j := by
    intro i j hi hj hne
    have hpair : (List.range (N + 1)).Pairwise
        (fun a b => candidate dir stem ext a ≠ candidate dir stem ext b) := by
      rw [← List.pairwise_map]
      exact hnodup
    have hsym : Symmetric (fun a b =>
        candidate dir stem ext a ≠ candidate dir stem ext b) := by
      intro a b hab hEq
      exact hab hEq.symm
    exact hpair.forall hsym (by simp; omega) (by simp; omega) hne
  have h := repeatResolve_aux conv parent dir stem ext hdir hmode fs0 N
    hfresh hinj N 0 (by omega)
  simpa [List.range_eq_range'] using h

/-- Witness for C7: three resolutions of stem `name` into `out`, starting
from empty storage, produce exactly `out/name.jpg`, `out/name_1.jpg`,
`out/name_2.jpg`. -/
theorem rename_sequence_deterministic_witness :
    ((List.range 4).map (candidate "out" "name" ".jpg")).Nodup ∧
    repeatResolve ⟨some "out", 90, 6, 90, .rename⟩ "in" "name" ".jpg" 3 []
      = ["out/name.jpg", "out/name_1.jpg", "out/name_2.jpg"] := by
  have h := rename_sequence_deterministic ⟨some "out", 90, 6, 90, .rename⟩
    "in" "out" "name" ".jpg" [] 3 rfl rfl (by decide)
    (by intro i hi; simp)
  refine ⟨by decide, ?_⟩
  rw [h]
  rfl

end HeicConvertModel
